import Mathlib

/-!
Shallow embedding of `src/scraper.py` (oreoreno/oredou_jido).

The repository is a single-file batch scraper: it collects gofile.io links
from configured Nitter sources (via RSS-Bridge mirrors and a direct
Playwright scrape), filters them through a persistent seen-URL ledger,
probes each unseen link for liveness, delivers the live ones to a Google
Sheet, and saves the ledger back if it changed.

Pure logic (URL extraction/normalization, liveness classification of a
rendered page text, the per-candidate / per-source control loop) is
translated directly.  External effects (HTTP fetches, the Playwright page,
the Google-Sheets append) are abstracted as oracles:
  * `fetch : String → Option String` — the body an RSS-Bridge mirror
    returns, or `none` when the request raises / has a bad status;
  * `probe : String → ProbeOutcome` — what navigating to a gofile URL
    yields (navigation error, body-read error, or the rendered page text);
  * `deliverOk : String → Bool` — whether `append_row_to_sheet` succeeds
    for the given URL (an exception in the Python code maps to `false`).

The run controller (`main`'s loop over sources and sorted candidate URLs)
is embedded as `runCandidates` / `runSources` over an explicit `RunState`
mirroring the Python local variables `seen_urls`, `new_seen`, `processed`,
`checks_done`, `blocked_detected`, extended with two event logs (`probed`,
`delivered`) that record which URLs were classified and which were appended
to the sheet, so that temporal claims can be stated.
-/

namespace Scraper

/-- `MAX_GOFILE_CHECKS_PER_RUN` from scraper.py line 55. -/
def MAX_GOFILE_CHECKS_PER_RUN : Nat := 40

/-- `GOFILE_DEAD_PATTERNS` from scraper.py lines 44-49. -/
def GOFILE_DEAD_PATTERNS : List String :=
  [ "This content does not exist"
  , "The content you are looking for could not be found"
  , "No items to display"
  , "This content is password protected" ]

/-- `GOFILE_BLOCK_PATTERN` from scraper.py line 52. -/
def GOFILE_BLOCK_PATTERN : String :=
  "refreshAppdataAccountsAndSync getAccountActive Failed to fetch"

/-- Helper for `strContains`: does `pat` occur as a contiguous run in the
character list?  (Python's `pat in text`.) -/
def substrAux (pat : List Char) : List Char → Bool
  | [] => pat.isEmpty
  | c :: cs => pat.isPrefixOf (c :: cs) || substrAux pat cs

/-- Python's substring test `pat in hay`. -/
def strContains (hay pat : String) : Bool :=
  substrAux pat.toList hay.toList

/-- `text.replace("\\/", "/")` from scraper.py line 101: rewrite every
occurrence of backslash-slash to a plain slash, scanning left to right. -/
def unescapeSlashes : List Char → List Char
  | '\\' :: '/' :: cs => '/' :: unescapeSlashes cs
  | c :: cs => c :: unescapeSlashes cs
  | [] => []

/-- Match a literal prefix; on success return the remaining characters. -/
def stripPrefixChars : List Char → List Char → Option (List Char)
  | [], cs => some cs
  | _ :: _, [] => none
  | p :: ps, c :: cs => if c = p then stripPrefixChars ps cs else none

/-- One attempted match of `GOFILE_REGEX = (?:https?://)?gofile\.io/d/[0-9A-Za-z]+`
(scraper.py lines 39-41) at the head of `cs`: returns the matched
characters and the rest of the input after the match.  The optional scheme
group is tried greedily (`https://` before `http://` before nothing), as
the regex engine does; since no scheme starts with `g`, a successful scheme
match never needs to backtrack. -/
def matchGofileAt (cs : List Char) : Option (List Char × List Char) :=
  let sr : List Char × List Char :=
    match stripPrefixChars "https://".toList cs with
    | some r => ("https://".toList, r)
    | none =>
      match stripPrefixChars "http://".toList cs with
      | some r => ("http://".toList, r)
      | none => ([], cs)
  match stripPrefixChars "gofile.io/d/".toList sr.2 with
  | none => none
  | some r2 =>
    if r2.takeWhile Char.isAlphanum = [] then none
    else
      some (sr.1 ++ "gofile.io/d/".toList ++ r2.takeWhile Char.isAlphanum,
            r2.dropWhile Char.isAlphanum)

/-- `GOFILE_REGEX.findall`: scan left to right, taking non-overlapping
leftmost matches.  The fuel argument (instantiated with the input length,
which every step strictly decreases by at least one) makes the recursion
structural; it never runs out. -/
def findGofileAux : Nat → List Char → List (List Char)
  | 0, _ => []
  | _ + 1, [] => []
  | fuel + 1, c :: cs =>
    match matchGofileAt (c :: cs) with
    | some (m, rest) => m :: findGofileAux fuel rest
    | none => findGofileAux fuel cs

/-- `normalize_gofile_urls_from_text` from scraper.py lines 93-112:
unescape `\/`, find all `GOFILE_REGEX` matches, deduplicate (Python builds
a `set`), and prepend `https://` to any match that does not start with
`http`.  The Python function returns a `set`; here the set is a
deduplicated list, compared by membership. -/
def normalize_gofile_urls_from_text (text : String) : List String :=
  let normalized_text := unescapeSlashes text.toList
  let raw_urls := (findGofileAux normalized_text.length normalized_text).dedup
  (raw_urls.map (fun u =>
    if ("http".toList).isPrefixOf u then String.mk u
    else String.mk ("https://".toList ++ u))).dedup

/-- Outcome of navigating a Playwright page to a URL: `page.goto` raised,
`page.inner_text("body")` raised, or the rendered body text. -/
inductive ProbeOutcome
  | navError
  | bodyError
  | pageText (text : String)
deriving DecidableEq, Repr

/-- Liveness verdict, the return value of `check_gofile_status`. -/
inductive GofileStatus
  | alive
  | dead
  | blocked
deriving DecidableEq, Repr

/-- `check_gofile_status` from scraper.py lines 262-293: navigation or
body-read failure gives `dead`; otherwise the block pattern is checked
first, then the dead patterns, defaulting to `alive`. -/
def check_gofile_status : ProbeOutcome → GofileStatus
  | .navError => .dead
  | .bodyError => .dead
  | .pageText text =>
    if strContains text GOFILE_BLOCK_PATTERN then .blocked
    else if GOFILE_DEAD_PATTERNS.any (fun p => strContains text p) then .dead
    else .alive

/-- `collect_gofile_urls_from_nitter_via_rss_bridge` from scraper.py lines
125-163, instrumented: iterate the `RSS_BRIDGE_BASES` list in order; a
failed request (`fetch base = none`) moves on to the next base; the first
successful body is extracted with `normalize_gofile_urls_from_text` and the
remaining bases are not contacted; if all bases fail the result is the
empty set.  The second component records which bases were contacted, in
order. -/
def collect_gofile_urls_from_nitter_via_rss_bridge
    (fetch : String → Option String) : List String → List String × List String
  | [] => ([], [])
  | base :: rest =>
    match fetch base with
    | none =>
      let r := collect_gofile_urls_from_nitter_via_rss_bridge fetch rest
      (r.1, base :: r.2)
    | some body => (normalize_gofile_urls_from_text body, [base])

/-- The mutable locals of `main` (scraper.py lines 362-365) plus event
logs: `probed` records each URL passed to `check_gofile_status`, in order;
`delivered` records each URL successfully appended to the sheet. -/
structure RunState where
  seen : List String
  newSeen : Bool
  processed : Nat
  checksDone : Nat
  blockedDetected : Bool
  probed : List String
  delivered : List String
deriving DecidableEq, Repr

/-- `seen_urls.add(url)`: Python set insertion (no-op when present). -/
def seenAdd (seen : List String) (u : String) : List String :=
  if u ∈ seen then seen else u :: seen

/-- The per-candidate loop `for url in sorted(urls)` of `main`
(scraper.py lines 383-415): skip seen URLs; stop (clearing
`blocked_detected`) once the budget is reached; otherwise classify, count
the check, and branch on the verdict — `blocked` stops immediately without
touching the seen set, `dead` adds to the seen set, `alive` attempts the
sheet append and records the URL as seen only when the append succeeds. -/
def runCandidates (probe : String → ProbeOutcome) (deliverOk : String → Bool) :
    RunState → List String → RunState
  | s, [] => s
  | s, url :: rest =>
    if url ∈ s.seen then runCandidates probe deliverOk s rest
    else if MAX_GOFILE_CHECKS_PER_RUN ≤ s.checksDone then
      { s with blockedDetected := false }
    else
      match check_gofile_status (probe url) with
      | .blocked =>
        { s with checksDone := s.checksDone + 1, probed := s.probed ++ [url],
                 blockedDetected := true }
      | .dead =>
        runCandidates probe deliverOk
          { s with checksDone := s.checksDone + 1, probed := s.probed ++ [url],
                   seen := seenAdd s.seen url, newSeen := true } rest
      | .alive =>
        if deliverOk url then
          runCandidates probe deliverOk
            { s with checksDone := s.checksDone + 1, probed := s.probed ++ [url],
                     delivered := s.delivered ++ [url], seen := seenAdd s.seen url,
                     newSeen := true, processed := s.processed + 1 } rest
        else
          runCandidates probe deliverOk
            { s with checksDone := s.checksDone + 1, probed := s.probed ++ [url] } rest

/-- The outer loop `for src in sources` of `main` (scraper.py lines
367-418): run the candidate loop on each source's collected URL list, then
`if blocked_detected or checks_done >= MAX_GOFILE_CHECKS_PER_RUN: break`. -/
def runSources (probe : String → ProbeOutcome) (deliverOk : String → Bool) :
    RunState → List (List String) → RunState
  | s, [] => s
  | s, cands :: rest =>
    let s1 := runCandidates probe deliverOk s cands
    if s1.blockedDetected = true ∨ MAX_GOFILE_CHECKS_PER_RUN ≤ s1.checksDone then s1
    else runSources probe deliverOk s1 rest

/-- Initial loop state of `main` (scraper.py lines 362-365), with the seen
set loaded from storage. -/
def initState (seen0 : List String) : RunState :=
  { seen := seen0, newSeen := false, processed := 0, checksDone := 0,
    blockedDetected := false, probed := [], delivered := [] }

/-- The whole run of `main`'s loop, with each source's collected candidate
list (the sorted union of the RSS and direct scrapes) given as input. -/
def mainRun (probe : String → ProbeOutcome) (deliverOk : String → Bool)
    (seen0 : List String) (srcs : List (List String)) : RunState :=
  runSources probe deliverOk (initState seen0) srcs

/-- `if new_seen: save_seen_urls(seen_urls)` (scraper.py lines 422-423):
the ledger file is written at run end exactly when `new_seen` is set. -/
def savePerformed (s : RunState) : Bool := s.newSeen

/-- The distinct candidate URLs appearing in some source's collected list
and not in the loaded seen set: the pool of unseen candidates available
across the sources of a run. -/
def unseenCandidates (seen0 : List String) (srcs : List (List String)) : List String :=
  srcs.flatten.dedup.filter (fun u => decide (u ∉ seen0))

/-- Forty-one pairwise-distinct candidate URLs, one more than the probe
budget, used to exercise the budget logic. -/
def budgetCands : List String :=
  (List.range 41).map (fun i => String.mk ('u' :: List.replicate i 'a'))

/-! ### Step lemmas for the control loop -/

theorem runCandidates_nil (probe : String → ProbeOutcome) (deliverOk : String → Bool)
    (s : RunState) : runCandidates probe deliverOk s [] = s := rfl

theorem runCandidates_skip (probe : String → ProbeOutcome) (deliverOk : String → Bool)
    (s : RunState) (url : String) (rest : List String) (h : url ∈ s.seen) :
    runCandidates probe deliverOk s (url :: rest) = runCandidates probe deliverOk s rest := by
  simp [runCandidates, h]

theorem runCandidates_budget_stop (probe : String → ProbeOutcome) (deliverOk : String → Bool)
    (s : RunState) (url : String) (rest : List String) (h1 : url ∉ s.seen)
    (h2 : MAX_GOFILE_CHECKS_PER_RUN ≤ s.checksDone) :
    runCandidates probe deliverOk s (url :: rest) = { s with blockedDetected := false } := by
  simp [runCandidates, h1, h2]

theorem runCandidates_blocked (probe : String → ProbeOutcome) (deliverOk : String → Bool)
    (s : RunState) (url : String) (rest : List String) (h1 : url ∉ s.seen)
    (h2 : ¬ MAX_GOFILE_CHECKS_PER_RUN ≤ s.checksDone)
    (h3 : check_gofile_status (probe url) = .blocked) :
    runCandidates probe deliverOk s (url :: rest) =
      { s with checksDone := s.checksDone + 1, probed := s.probed ++ [url],
               blockedDetected := true } := by
  simp [runCandidates, h1, h2, h3]

theorem runCandidates_dead (probe : String → ProbeOutcome) (deliverOk : String → Bool)
    (s : RunState) (url : String) (rest : List String) (h1 : url ∉ s.seen)
    (h2 : ¬ MAX_GOFILE_CHECKS_PER_RUN ≤ s.checksDone)
    (h3 : check_gofile_status (probe url) = .dead) :
    runCandidates probe deliverOk s (url :: rest) =
      runCandidates probe deliverOk
        { s with checksDone := s.checksDone + 1, probed := s.probed ++ [url],
                 seen := seenAdd s.seen url, newSeen := true } rest := by
  simp [runCandidates, h1, h2, h3]

theorem runCandidates_alive_delivered (probe : String → ProbeOutcome) (deliverOk : String → Bool)
    (s : RunState) (url : String) (rest : List String) (h1 : url ∉ s.seen)
    (h2 : ¬ MAX_GOFILE_CHECKS_PER_RUN ≤ s.checksDone)
    (h3 : check_gofile_status (probe url) = .alive) (h4 : deliverOk url = true) :
    runCandidates probe deliverOk s (url :: rest) =
      runCandidates probe deliverOk
        { s with checksDone := s.checksDone + 1, probed := s.probed ++ [url],
                 delivered := s.delivered ++ [url], seen := seenAdd s.seen url,
                 newSeen := true, processed := s.processed + 1 } rest := by
  simp [runCandidates, h1, h2, h3, h4]

theorem runCandidates_alive_failed (probe : String → ProbeOutcome) (deliverOk : String → Bool)
    (s : RunState) (url : String) (rest : List String) (h1 : url ∉ s.seen)
    (h2 : ¬ MAX_GOFILE_CHECKS_PER_RUN ≤ s.checksDone)
    (h3 : check_gofile_status (probe url) = .alive) (h4 : deliverOk url = false) :
    runCandidates probe deliverOk s (url :: rest) =
      runCandidates probe deliverOk
        { s with checksDone := s.checksDone + 1, probed := s.probed ++ [url] } rest := by
  simp [runCandidates, h1, h2, h3, h4]

theorem runSources_cons (probe : String → ProbeOutcome) (deliverOk : String → Bool)
    (s : RunState) (cands : List String) (rest : List (List String)) :
    runSources probe deliverOk s (cands :: rest) =
      if (runCandidates probe deliverOk s cands).blockedDetected = true
         ∨ MAX_GOFILE_CHECKS_PER_RUN ≤ (runCandidates probe deliverOk s cands).checksDone
      then runCandidates probe deliverOk s cands
      else runSources probe deliverOk (runCandidates probe deliverOk s cands) rest := rfl

theorem mem_seenAdd {l : List String} {v u : String} :
    u ∈ seenAdd l v ↔ u = v ∨ u ∈ l := by
  unfold seenAdd
  split
  case isTrue h =>
    exact ⟨fun hu => Or.inr hu, fun h' => h'.elim (fun e => e ▸ h) id⟩
  case isFalse h =>
    simp [List.mem_cons]

/-! ### Invariants of the candidate loop -/

theorem runCandidates_checks_le (probe : String → ProbeOutcome) (deliverOk : String → Bool) :
    ∀ (cands : List String) (s : RunState), s.checksDone ≤ MAX_GOFILE_CHECKS_PER_RUN →
      (runCandidates probe deliverOk s cands).checksDone ≤ MAX_GOFILE_CHECKS_PER_RUN := by
  intro cands
  induction cands with
  | nil => intro s hs; exact hs
  | cons url rest ih =>
    intro s hs
    by_cases hmem : url ∈ s.seen
    · rw [runCandidates_skip probe deliverOk s url rest hmem]; exact ih s hs
    · by_cases hbud : MAX_GOFILE_CHECKS_PER_RUN ≤ s.checksDone
      · rw [runCandidates_budget_stop probe deliverOk s url rest hmem hbud]; exact hs
      · have hlt : s.checksDone < MAX_GOFILE_CHECKS_PER_RUN := Nat.lt_of_not_le hbud
        cases hst : check_gofile_status (probe url) with
        | blocked =>
          rw [runCandidates_blocked probe deliverOk s url rest hmem hbud hst]
          exact hlt
        | dead =>
          rw [runCandidates_dead probe deliverOk s url rest hmem hbud hst]
          exact ih _ hlt
        | alive =>
          cases hdel : deliverOk url with
          | true =>
            rw [runCandidates_alive_delivered probe deliverOk s url rest hmem hbud hst hdel]
            exact ih _ hlt
          | false =>
            rw [runCandidates_alive_failed probe deliverOk s url rest hmem hbud hst hdel]
            exact ih _ hlt

theorem runSources_checks_le (probe : String → ProbeOutcome) (deliverOk : String → Bool) :
    ∀ (srcs : List (List String)) (s : RunState), s.checksDone ≤ MAX_GOFILE_CHECKS_PER_RUN →
      (runSources probe deliverOk s srcs).checksDone ≤ MAX_GOFILE_CHECKS_PER_RUN := by
  intro srcs
  induction srcs with
  | nil => intro s hs; exact hs
  | cons cands rest ih =>
    intro s hs
    rw [runSources_cons]
    split
    · exact runCandidates_checks_le probe deliverOk cands s hs
    · exact ih _ (runCandidates_checks_le probe deliverOk cands s hs)

theorem runCandidates_seen_mono (probe : String → ProbeOutcome) (deliverOk : String → Bool) :
    ∀ (cands : List String) (s : RunState) (u : String), u ∈ s.seen →
      u ∈ (runCandidates probe deliverOk s cands).seen := by
  intro cands
  induction cands with
  | nil => intro s u h; exact h
  | cons url rest ih =>
    intro s u h
    by_cases hmem : url ∈ s.seen
    · rw [runCandidates_skip probe deliverOk s url rest hmem]; exact ih s u h
    · by_cases hbud : MAX_GOFILE_CHECKS_PER_RUN ≤ s.checksDone
      · rw [runCandidates_budget_stop probe deliverOk s url rest hmem hbud]; exact h
      · cases hst : check_gofile_status (probe url) with
        | blocked =>
          rw [runCandidates_blocked probe deliverOk s url rest hmem hbud hst]
          exact h
        | dead =>
          rw [runCandidates_dead probe deliverOk s url rest hmem hbud hst]
          exact ih _ u (mem_seenAdd.mpr (Or.inr h))
        | alive =>
          cases hdel : deliverOk url with
          | true =>
            rw [runCandidates_alive_delivered probe deliverOk s url rest hmem hbud hst hdel]
            exact ih _ u (mem_seenAdd.mpr (Or.inr h))
          | false =>
            rw [runCandidates_alive_failed probe deliverOk s url rest hmem hbud hst hdel]
            exact ih _ u h

theorem runSources_seen_mono (probe : String → ProbeOutcome) (deliverOk : String → Bool) :
    ∀ (srcs : List (List String)) (s : RunState) (u : String), u ∈ s.seen →
      u ∈ (runSources probe deliverOk s srcs).seen := by
  intro srcs
  induction srcs with
  | nil => intro s u h; exact h
  | cons cands rest ih =>
    intro s u h
    rw [runSources_cons]
    split
    · exact runCandidates_seen_mono probe deliverOk cands s u h
    · exact ih _ u (runCandidates_seen_mono probe deliverOk cands s u h)

theorem runCandidates_probed_ext (probe : String → ProbeOutcome) (deliverOk : String → Bool) :
    ∀ (cands : List String) (s : RunState),
      ∃ t, (runCandidates probe deliverOk s cands).probed = s.probed ++ t := by
  intro cands
  induction cands with
  | nil => intro s; exact ⟨[], (List.append_nil _).symm⟩
  | cons url rest ih =>
    intro s
    by_cases hmem : url ∈ s.seen
    · rw [runCandidates_skip probe deliverOk s url rest hmem]; exact ih s
    · by_cases hbud : MAX_GOFILE_CHECKS_PER_RUN ≤ s.checksDone
      · rw [runCandidates_budget_stop probe deliverOk s url rest hmem hbud]
        exact ⟨[], (List.append_nil _).symm⟩
      · cases hst : check_gofile_status (probe url) with
        | blocked =>
          rw [runCandidates_blocked probe deliverOk s url rest hmem hbud hst]
          exact ⟨[url], rfl⟩
        | dead =>
          rw [runCandidates_dead probe deliverOk s url rest hmem hbud hst]
          obtain ⟨t, ht⟩ := ih { s with checksDone := s.checksDone + 1, probed := s.probed ++ [url], seen := seenAdd s.seen url, newSeen := true }
          exact ⟨[url] ++ t, by rw [ht]; simp⟩
        | alive =>
          cases hdel : deliverOk url with
          | true =>
            rw [runCandidates_alive_delivered probe deliverOk s url rest hmem hbud hst hdel]
            obtain ⟨t, ht⟩ := ih { s with checksDone := s.checksDone + 1, probed := s.probed ++ [url], delivered := s.delivered ++ [url], seen := seenAdd s.seen url, newSeen := true, processed := s.processed + 1 }
            exact ⟨[url] ++ t, by rw [ht]; simp⟩
          | false =>
            rw [runCandidates_alive_failed probe deliverOk s url rest hmem hbud hst hdel]
            obtain ⟨t, ht⟩ := ih { s with checksDone := s.checksDone + 1, probed := s.probed ++ [url] }
            exact ⟨[url] ++ t, by rw [ht]; simp⟩

theorem runSources_probed_ext (probe : String → ProbeOutcome) (deliverOk : String → Bool) :
    ∀ (srcs : List (List String)) (s : RunState),
      ∃ t, (runSources probe deliverOk s srcs).probed = s.probed ++ t := by
  intro srcs
  induction srcs with
  | nil => intro s; exact ⟨[], (List.append_nil _).symm⟩
  | cons cands rest ih =>
    intro s
    rw [runSources_cons]
    split
    · exact runCandidates_probed_ext probe deliverOk cands s
    · obtain ⟨t1, ht1⟩ := runCandidates_probed_ext probe deliverOk cands s
      obtain ⟨t2, ht2⟩ := ih (runCandidates probe deliverOk s cands)
      exact ⟨t1 ++ t2, by rw [ht2, ht1]; simp⟩

theorem runCandidates_seen_from_probed (probe : String → ProbeOutcome) (deliverOk : String → Bool) :
    ∀ (cands : List String) (s : RunState) (u : String),
      u ∈ (runCandidates probe deliverOk s cands).seen →
      u ∈ s.seen ∨ u ∈ (runCandidates probe deliverOk s cands).probed := by
  intro cands
  induction cands with
  | nil => intro s u h; exact Or.inl h
  | cons url rest ih =>
    intro s u h
    by_cases hmem : url ∈ s.seen
    · rw [runCandidates_skip probe deliverOk s url rest hmem] at h ⊢
      exact ih s u h
    · by_cases hbud : MAX_GOFILE_CHECKS_PER_RUN ≤ s.checksDone
      · rw [runCandidates_budget_stop probe deliverOk s url rest hmem hbud] at h
        exact Or.inl h
      · cases hst : check_gofile_status (probe url) with
        | blocked =>
          rw [runCandidates_blocked probe deliverOk s url rest hmem hbud hst] at h
          exact Or.inl h
        | dead =>
          rw [runCandidates_dead probe deliverOk s url rest hmem hbud hst] at h ⊢
          rcases ih _ u h with h' | h'
          · rcases mem_seenAdd.mp h' with rfl | h''
            · right
              obtain ⟨t, ht⟩ := runCandidates_probed_ext probe deliverOk rest { s with checksDone := s.checksDone + 1, probed := s.probed ++ [u], seen := seenAdd s.seen u, newSeen := true }
              rw [ht]; simp
            · exact Or.inl h''
          · exact Or.inr h'
        | alive =>
          cases hdel : deliverOk url with
          | true =>
            rw [runCandidates_alive_delivered probe deliverOk s url rest hmem hbud hst hdel]
              at h ⊢
            rcases ih _ u h with h' | h'
            · rcases mem_seenAdd.mp h' with rfl | h''
              · right
                obtain ⟨t, ht⟩ := runCandidates_probed_ext probe deliverOk rest { s with checksDone := s.checksDone + 1, probed := s.probed ++ [u], delivered := s.delivered ++ [u], seen := seenAdd s.seen u, newSeen := true, processed := s.processed + 1 }
                rw [ht]; simp
              · exact Or.inl h''
            · exact Or.inr h'
          | false =>
            rw [runCandidates_alive_failed probe deliverOk s url rest hmem hbud hst hdel]
              at h ⊢
            rcases ih _ u h with h' | h'
            · exact Or.inl h'
            · exact Or.inr h'

theorem runSources_seen_from_probed (probe : String → ProbeOutcome) (deliverOk : String → Bool) :
    ∀ (srcs : List (List String)) (s : RunState) (u : String),
      u ∈ (runSources probe deliverOk s srcs).seen →
      u ∈ s.seen ∨ u ∈ (runSources probe deliverOk s srcs).probed := by
  intro srcs
  induction srcs with
  | nil => intro s u h; exact Or.inl h
  | cons cands rest ih =>
    intro s u h
    rw [runSources_cons] at h ⊢
    split at h
    · rw [if_pos (by assumption)]
      exact runCandidates_seen_from_probed probe deliverOk cands s u h
    · rw [if_neg (by assumption)]
      rcases ih _ u h with h' | h'
      · rcases runCandidates_seen_from_probed probe deliverOk cands s u h' with h'' | h''
        · exact Or.inl h''
        · right
          obtain ⟨t, ht⟩ := runSources_probed_ext probe deliverOk rest
            (runCandidates probe deliverOk s cands)
          rw [ht]
          exact List.mem_append.mpr (Or.inl h'')
      · exact Or.inr h'

theorem count_append_single_ne {l : List String} {a c : String} (h : c ≠ a) :
    (l ++ [a]).count c = l.count c := by
  simp [List.count_append, List.count_cons, beq_iff_eq, h]

theorem runCandidates_count_pres (probe : String → ProbeOutcome) (deliverOk : String → Bool) :
    ∀ (cands : List String) (s : RunState) (c : String), c ∈ s.seen →
      (runCandidates probe deliverOk s cands).probed.count c = s.probed.count c
      ∧ (runCandidates probe deliverOk s cands).delivered.count c = s.delivered.count c := by
  intro cands
  induction cands with
  | nil => intro s c _; exact ⟨rfl, rfl⟩
  | cons url rest ih =>
    intro s c hc
    by_cases hmem : url ∈ s.seen
    · rw [runCandidates_skip probe deliverOk s url rest hmem]; exact ih s c hc
    · have hne : c ≠ url := fun e => hmem (e ▸ hc)
      by_cases hbud : MAX_GOFILE_CHECKS_PER_RUN ≤ s.checksDone
      · rw [runCandidates_budget_stop probe deliverOk s url rest hmem hbud]
        exact ⟨rfl, rfl⟩
      · cases hst : check_gofile_status (probe url) with
        | blocked =>
          rw [runCandidates_blocked probe deliverOk s url rest hmem hbud hst]
          exact ⟨count_append_single_ne hne, rfl⟩
        | dead =>
          rw [runCandidates_dead probe deliverOk s url rest hmem hbud hst]
          obtain ⟨e1, e2⟩ := ih { s with checksDone := s.checksDone + 1, probed := s.probed ++ [url], seen := seenAdd s.seen url, newSeen := true } c (mem_seenAdd.mpr (Or.inr hc))
          exact ⟨e1.trans (count_append_single_ne hne), e2⟩
        | alive =>
          cases hdel : deliverOk url with
          | true =>
            rw [runCandidates_alive_delivered probe deliverOk s url rest hmem hbud hst hdel]
            obtain ⟨e1, e2⟩ := ih { s with checksDone := s.checksDone + 1, probed := s.probed ++ [url], delivered := s.delivered ++ [url], seen := seenAdd s.seen url, newSeen := true, processed := s.processed + 1 } c (mem_seenAdd.mpr (Or.inr hc))
            exact ⟨e1.trans (count_append_single_ne hne), e2.trans (count_append_single_ne hne)⟩
          | false =>
            rw [runCandidates_alive_failed probe deliverOk s url rest hmem hbud hst hdel]
            obtain ⟨e1, e2⟩ := ih { s with checksDone := s.checksDone + 1, probed := s.probed ++ [url] } c hc
            exact ⟨e1.trans (count_append_single_ne hne), e2⟩

theorem runSources_count_pres (probe : String → ProbeOutcome) (deliverOk : String → Bool) :
    ∀ (srcs : List (List String)) (s : RunState) (c : String), c ∈ s.seen →
      (runSources probe deliverOk s srcs).probed.count c = s.probed.count c
      ∧ (runSources probe deliverOk s srcs).delivered.count c = s.delivered.count c := by
  intro srcs
  induction srcs with
  | nil => intro s c _; exact ⟨rfl, rfl⟩
  | cons cands rest ih =>
    intro s c hc
    rw [runSources_cons]
    split
    · exact runCandidates_count_pres probe deliverOk cands s c hc
    · obtain ⟨e1, e2⟩ := runCandidates_count_pres probe deliverOk cands s c hc
      obtain ⟨f1, f2⟩ := ih (runCandidates probe deliverOk s cands) c
        (runCandidates_seen_mono probe deliverOk cands s c hc)
      exact ⟨f1.trans e1, f2.trans e2⟩

theorem runCandidates_seen_new (probe : String → ProbeOutcome) (deliverOk : String → Bool) :
    ∀ (cands : List String) (s : RunState) (u : String),
      u ∈ (runCandidates probe deliverOk s cands).seen →
      u ∈ s.seen ∨ check_gofile_status (probe u) = .dead
        ∨ (check_gofile_status (probe u) = .alive ∧ deliverOk u = true) := by
  intro cands
  induction cands with
  | nil => intro s u h; exact Or.inl h
  | cons url rest ih =>
    intro s u h
    by_cases hmem : url ∈ s.seen
    · rw [runCandidates_skip probe deliverOk s url rest hmem] at h
      exact ih s u h
    · by_cases hbud : MAX_GOFILE_CHECKS_PER_RUN ≤ s.checksDone
      · rw [runCandidates_budget_stop probe deliverOk s url rest hmem hbud] at h
        exact Or.inl h
      · cases hst : check_gofile_status (probe url) with
        | blocked =>
          rw [runCandidates_blocked probe deliverOk s url rest hmem hbud hst] at h
          exact Or.inl h
        | dead =>
          rw [runCandidates_dead probe deliverOk s url rest hmem hbud hst] at h
          rcases ih _ u h with h' | h'
          · rcases mem_seenAdd.mp h' with rfl | h''
            · exact Or.inr (Or.inl hst)
            · exact Or.inl h''
          · exact Or.inr h'
        | alive =>
          cases hdel : deliverOk url with
          | true =>
            rw [runCandidates_alive_delivered probe deliverOk s url rest hmem hbud hst hdel] at h
            rcases ih _ u h with h' | h'
            · rcases mem_seenAdd.mp h' with rfl | h''
              · exact Or.inr (Or.inr ⟨hst, hdel⟩)
              · exact Or.inl h''
            · exact Or.inr h'
          | false =>
            rw [runCandidates_alive_failed probe deliverOk s url rest hmem hbud hst hdel] at h
            rcases ih _ u h with h' | h'
            · exact Or.inl h'
            · exact Or.inr h'

theorem runSources_seen_new (probe : String → ProbeOutcome) (deliverOk : String → Bool) :
    ∀ (srcs : List (List String)) (s : RunState) (u : String),
      u ∈ (runSources probe deliverOk s srcs).seen →
      u ∈ s.seen ∨ check_gofile_status (probe u) = .dead
        ∨ (check_gofile_status (probe u) = .alive ∧ deliverOk u = true) := by
  intro srcs
  induction srcs with
  | nil => intro s u h; exact Or.inl h
  | cons cands rest ih =>
    intro s u h
    rw [runSources_cons] at h
    split at h
    · exact runCandidates_seen_new probe deliverOk cands s u h
    · rcases ih _ u h with h' | h'
      · exact runCandidates_seen_new probe deliverOk cands s u h'
      · exact Or.inr h'

theorem runCandidates_all_seen (probe : String → ProbeOutcome) (deliverOk : String → Bool) :
    ∀ (cands : List String) (s : RunState), (∀ u ∈ cands, u ∈ s.seen) →
      runCandidates probe deliverOk s cands = s := by
  intro cands
  induction cands with
  | nil => intro s _; rfl
  | cons url rest ih =>
    intro s h
    rw [runCandidates_skip probe deliverOk s url rest (h url (List.mem_cons_self url rest))]
    exact ih s (fun u hu => h u (List.mem_cons_of_mem url hu))

theorem runSources_all_seen (probe : String → ProbeOutcome) (deliverOk : String → Bool) :
    ∀ (srcs : List (List String)) (s : RunState),
      (∀ cands ∈ srcs, ∀ u ∈ cands, u ∈ s.seen) →
      s.blockedDetected = false → s.checksDone < MAX_GOFILE_CHECKS_PER_RUN →
      runSources probe deliverOk s srcs = s := by
  intro srcs
  induction srcs with
  | nil => intro s _ _ _; rfl
  | cons cands rest ih =>
    intro s h hb hc
    have hall : runCandidates probe deliverOk s cands = s :=
      runCandidates_all_seen probe deliverOk cands s
        (h cands (List.mem_cons_self cands rest))
    rw [runSources_cons, hall, if_neg (by rw [hb]; simp; omega)]
    exact ih s (fun c hcm => h c (List.mem_cons_of_mem cands hcm)) hb hc

theorem probed_snoc_no_block {probe : String → ProbeOutcome} {l : List String} {url : String}
    (hp : ∀ v ∈ l, check_gofile_status (probe v) ≠ .blocked)
    (hu : check_gofile_status (probe url) ≠ .blocked) :
    ∀ v ∈ l ++ [url], check_gofile_status (probe v) ≠ .blocked := by
  intro v hv
  rcases List.mem_append.mp hv with h | h
  · exact hp v h
  · rw [List.mem_singleton.mp h]; exact hu

theorem runCandidates_blocked_inv (probe : String → ProbeOutcome) (deliverOk : String → Bool) :
    ∀ (cands : List String) (s : RunState), s.blockedDetected = false →
      (∀ v ∈ s.probed, check_gofile_status (probe v) ≠ .blocked) →
      ((runCandidates probe deliverOk s cands).blockedDetected = false →
        ∀ v ∈ (runCandidates probe deliverOk s cands).probed,
          check_gofile_status (probe v) ≠ .blocked)
      ∧ ((runCandidates probe deliverOk s cands).blockedDetected = true →
        ∃ l u, (runCandidates probe deliverOk s cands).probed = l ++ [u]
          ∧ check_gofile_status (probe u) = .blocked
          ∧ (∀ v ∈ l, check_gofile_status (probe v) ≠ .blocked)
          ∧ u ∉ (runCandidates probe deliverOk s cands).seen) := by
  intro cands
  induction cands with
  | nil =>
    intro s hb hp
    exact ⟨fun _ => hp, fun habs => by rw [runCandidates_nil, hb] at habs; cases habs⟩
  | cons url rest ih =>
    intro s hb hp
    by_cases hmem : url ∈ s.seen
    · rw [runCandidates_skip probe deliverOk s url rest hmem]
      exact ih s hb hp
    · by_cases hbud : MAX_GOFILE_CHECKS_PER_RUN ≤ s.checksDone
      · rw [runCandidates_budget_stop probe deliverOk s url rest hmem hbud]
        exact ⟨fun _ => hp, fun habs => by cases habs⟩
      · cases hst : check_gofile_status (probe url) with
        | blocked =>
          rw [runCandidates_blocked probe deliverOk s url rest hmem hbud hst]
          constructor
          · intro habs; cases habs
          · intro _
            exact ⟨s.probed, url, rfl, hst, hp, hmem⟩
        | dead =>
          rw [runCandidates_dead probe deliverOk s url rest hmem hbud hst]
          exact ih _ hb (probed_snoc_no_block hp (by rw [hst]; intro h; cases h))
        | alive =>
          cases hdel : deliverOk url with
          | true =>
            rw [runCandidates_alive_delivered probe deliverOk s url rest hmem hbud hst hdel]
            exact ih _ hb (probed_snoc_no_block hp (by rw [hst]; intro h; cases h))
          | false =>
            rw [runCandidates_alive_failed probe deliverOk s url rest hmem hbud hst hdel]
            exact ih _ hb (probed_snoc_no_block hp (by rw [hst]; intro h; cases h))

theorem runSources_blocked_inv (probe : String → ProbeOutcome) (deliverOk : String → Bool) :
    ∀ (srcs : List (List String)) (s : RunState), s.blockedDetected = false →
      (∀ v ∈ s.probed, check_gofile_status (probe v) ≠ .blocked) →
      ((runSources probe deliverOk s srcs).blockedDetected = true →
        ∃ l u, (runSources probe deliverOk s srcs).probed = l ++ [u]
          ∧ check_gofile_status (probe u) = .blocked
          ∧ (∀ v ∈ l, check_gofile_status (probe v) ≠ .blocked)
          ∧ u ∉ (runSources probe deliverOk s srcs).seen) := by
  intro srcs
  induction srcs with
  | nil =>
    intro s hb _ habs
    rw [show runSources probe deliverOk s [] = s from rfl, hb] at habs
    cases habs
  | cons cands rest ih =>
    intro s hb hp
    have H := runCandidates_blocked_inv probe deliverOk cands s hb hp
    rw [runSources_cons]
    split
    · exact H.2
    · rename_i hguard
      have hb1 : (runCandidates probe deliverOk s cands).blockedDetected = false := by
        rcases Bool.eq_false_or_eq_true (runCandidates probe deliverOk s cands).blockedDetected
          with h | h
        · exact absurd (Or.inl h) hguard
        · exact h
      exact ih (runCandidates probe deliverOk s cands) hb1 (H.1 hb1)

theorem runCandidates_budget_exact (probe : String → ProbeOutcome) (deliverOk : String → Bool) :
    ∀ (cands : List String) (s : RunState), cands.Nodup →
      (∀ u ∈ cands, u ∉ s.seen) →
      (∀ u ∈ cands, check_gofile_status (probe u) ≠ .blocked) →
      s.checksDone ≤ MAX_GOFILE_CHECKS_PER_RUN →
      MAX_GOFILE_CHECKS_PER_RUN < s.checksDone + cands.length →
      (runCandidates probe deliverOk s cands).checksDone = MAX_GOFILE_CHECKS_PER_RUN
      ∧ (runCandidates probe deliverOk s cands).probed
          = s.probed ++ cands.take (MAX_GOFILE_CHECKS_PER_RUN - s.checksDone)
      ∧ (runCandidates probe deliverOk s cands).blockedDetected = false := by
  intro cands
  induction cands with
  | nil =>
    intro s _ _ _ h4 h5
    simp at h5
    omega
  | cons url rest ih =>
    intro s h1 h2 h3 h4 h5
    have hmem : url ∉ s.seen := h2 url (List.mem_cons_self url rest)
    by_cases hbud : MAX_GOFILE_CHECKS_PER_RUN ≤ s.checksDone
    · have heq : s.checksDone = MAX_GOFILE_CHECKS_PER_RUN := Nat.le_antisymm h4 hbud
      rw [runCandidates_budget_stop probe deliverOk s url rest hmem hbud]
      refine ⟨heq, ?_, rfl⟩
      simp [heq]
    · have hlt : s.checksDone < MAX_GOFILE_CHECKS_PER_RUN := Nat.lt_of_not_le hbud
      have hnodup := List.nodup_cons.mp h1
      have harith : MAX_GOFILE_CHECKS_PER_RUN - s.checksDone
          = (MAX_GOFILE_CHECKS_PER_RUN - (s.checksDone + 1)) + 1 := by omega
      have h5' : MAX_GOFILE_CHECKS_PER_RUN < (s.checksDone + 1) + rest.length := by
        simp at h5; omega
      have h3' : ∀ u ∈ rest, check_gofile_status (probe u) ≠ .blocked :=
        fun u hu => h3 u (List.mem_cons_of_mem url hu)
      have h2' : ∀ u ∈ rest, u ∉ seenAdd s.seen url := by
        intro u hu hin
        rcases mem_seenAdd.mp hin with rfl | hin'
        · exact hnodup.1 hu
        · exact h2 u (List.mem_cons_of_mem url hu) hin'
      have h2'' : ∀ u ∈ rest, u ∉ s.seen :=
        fun u hu => h2 u (List.mem_cons_of_mem url hu)
      cases hst : check_gofile_status (probe url) with
      | blocked => exact absurd hst (h3 url (List.mem_cons_self url rest))
      | dead =>
        rw [runCandidates_dead probe deliverOk s url rest hmem hbud hst]
        obtain ⟨e1, e2, e3⟩ := ih { s with checksDone := s.checksDone + 1, probed := s.probed ++ [url], seen := seenAdd s.seen url, newSeen := true } hnodup.2 h2' h3' hlt h5'
        refine ⟨e1, ?_, e3⟩
        rw [e2, harith, List.take_succ_cons]
        simp
      | alive =>
        cases hdel : deliverOk url with
        | true =>
          rw [runCandidates_alive_delivered probe deliverOk s url rest hmem hbud hst hdel]
          obtain ⟨e1, e2, e3⟩ := ih { s with checksDone := s.checksDone + 1, probed := s.probed ++ [url], delivered := s.delivered ++ [url], seen := seenAdd s.seen url, newSeen := true, processed := s.processed + 1 } hnodup.2 h2' h3' hlt h5'
          refine ⟨e1, ?_, e3⟩
          rw [e2, harith, List.take_succ_cons]
          simp
        | false =>
          rw [runCandidates_alive_failed probe deliverOk s url rest hmem hbud hst hdel]
          obtain ⟨e1, e2, e3⟩ := ih { s with checksDone := s.checksDone + 1, probed := s.probed ++ [url] } hnodup.2 h2'' h3' hlt h5'
          refine ⟨e1, ?_, e3⟩
          rw [e2, harith, List.take_succ_cons]
          simp

theorem collect_all_none (fetch : String → Option String) :
    ∀ (bases : List String), (∀ b ∈ bases, fetch b = none) →
      collect_gofile_urls_from_nitter_via_rss_bridge fetch bases = ([], bases) := by
  intro bases
  induction bases with
  | nil => intro _; rfl
  | cons b bs ih =>
    intro h
    simp only [collect_gofile_urls_from_nitter_via_rss_bridge, h b (List.mem_cons_self b bs),
      ih (fun x hx => h x (List.mem_cons_of_mem b hx))]

theorem runCandidates_probed_sub (probe : String → ProbeOutcome) (deliverOk : String → Bool) :
    ∀ (cands : List String) (s : RunState) (u : String),
      u ∈ (runCandidates probe deliverOk s cands).probed → u ∈ s.probed ∨ u ∈ cands := by
  intro cands
  induction cands with
  | nil => intro s u h; exact Or.inl h
  | cons url rest ih =>
    intro s u h
    by_cases hmem : url ∈ s.seen
    · rw [runCandidates_skip probe deliverOk s url rest hmem] at h
      rcases ih s u h with h' | h'
      · exact Or.inl h'
      · exact Or.inr (List.mem_cons_of_mem url h')
    · by_cases hbud : MAX_GOFILE_CHECKS_PER_RUN ≤ s.checksDone
      · rw [runCandidates_budget_stop probe deliverOk s url rest hmem hbud] at h
        exact Or.inl h
      · cases hst : check_gofile_status (probe url) with
        | blocked =>
          rw [runCandidates_blocked probe deliverOk s url rest hmem hbud hst] at h
          rcases List.mem_append.mp h with h' | h'
          · exact Or.inl h'
          · exact Or.inr (by rw [List.mem_singleton.mp h']; exact List.mem_cons_self url rest)
        | dead =>
          rw [runCandidates_dead probe deliverOk s url rest hmem hbud hst] at h
          rcases ih _ u h with h' | h'
          · rcases List.mem_append.mp h' with h'' | h''
            · exact Or.inl h''
            · exact Or.inr (by rw [List.mem_singleton.mp h'']; exact List.mem_cons_self url rest)
          · exact Or.inr (List.mem_cons_of_mem url h')
        | alive =>
          cases hdel : deliverOk url with
          | true =>
            rw [runCandidates_alive_delivered probe deliverOk s url rest hmem hbud hst hdel] at h
            rcases ih _ u h with h' | h'
            · rcases List.mem_append.mp h' with h'' | h''
              · exact Or.inl h''
              · exact Or.inr (by rw [List.mem_singleton.mp h'']; exact List.mem_cons_self url rest)
            · exact Or.inr (List.mem_cons_of_mem url h')
          | false =>
            rw [runCandidates_alive_failed probe deliverOk s url rest hmem hbud hst hdel] at h
            rcases ih _ u h with h' | h'
            · rcases List.mem_append.mp h' with h'' | h''
              · exact Or.inl h''
              · exact Or.inr (by rw [List.mem_singleton.mp h'']; exact List.mem_cons_self url rest)
            · exact Or.inr (List.mem_cons_of_mem url h')

theorem runSources_probed_sub (probe : String → ProbeOutcome) (deliverOk : String → Bool) :
    ∀ (srcs : List (List String)) (s : RunState) (u : String),
      u ∈ (runSources probe deliverOk s srcs).probed → u ∈ s.probed ∨ u ∈ srcs.flatten := by
  intro srcs
  induction srcs with
  | nil => intro s u h; exact Or.inl h
  | cons cands rest ih =>
    intro s u h
    rw [runSources_cons] at h
    split at h
    · rcases runCandidates_probed_sub probe deliverOk cands s u h with h' | h'
      · exact Or.inl h'
      · exact Or.inr (by rw [List.flatten_cons]; exact List.mem_append.mpr (Or.inl h'))
    · rcases ih _ u h with h' | h'
      · rcases runCandidates_probed_sub probe deliverOk cands s u h' with h'' | h''
        · exact Or.inl h''
        · exact Or.inr (by rw [List.flatten_cons]; exact List.mem_append.mpr (Or.inl h''))
      · exact Or.inr (by rw [List.flatten_cons]; exact List.mem_append.mpr (Or.inr h'))

theorem runCandidates_probed_length (probe : String → ProbeOutcome) (deliverOk : String → Bool) :
    ∀ (cands : List String) (s : RunState), s.probed.length = s.checksDone →
      (runCandidates probe deliverOk s cands).probed.length
        = (runCandidates probe deliverOk s cands).checksDone := by
  intro cands
  induction cands with
  | nil => intro s h; exact h
  | cons url rest ih =>
    intro s h
    by_cases hmem : url ∈ s.seen
    · rw [runCandidates_skip probe deliverOk s url rest hmem]; exact ih s h
    · by_cases hbud : MAX_GOFILE_CHECKS_PER_RUN ≤ s.checksDone
      · rw [runCandidates_budget_stop probe deliverOk s url rest hmem hbud]; exact h
      · cases hst : check_gofile_status (probe url) with
        | blocked =>
          rw [runCandidates_blocked probe deliverOk s url rest hmem hbud hst]
          simp [h]
        | dead =>
          rw [runCandidates_dead probe deliverOk s url rest hmem hbud hst]
          exact ih _ (by simp [h])
        | alive =>
          cases hdel : deliverOk url with
          | true =>
            rw [runCandidates_alive_delivered probe deliverOk s url rest hmem hbud hst hdel]
            exact ih _ (by simp [h])
          | false =>
            rw [runCandidates_alive_failed probe deliverOk s url rest hmem hbud hst hdel]
            exact ih _ (by simp [h])

theorem runSources_probed_length (probe : String → ProbeOutcome) (deliverOk : String → Bool) :
    ∀ (srcs : List (List String)) (s : RunState), s.probed.length = s.checksDone →
      (runSources probe deliverOk s srcs).probed.length
        = (runSources probe deliverOk s srcs).checksDone := by
  intro srcs
  induction srcs with
  | nil => intro s h; exact h
  | cons cands rest ih =>
    intro s h
    rw [runSources_cons]
    split
    · exact runCandidates_probed_length probe deliverOk cands s h
    · exact ih _ (runCandidates_probed_length probe deliverOk cands s h)

theorem runCandidates_complete (probe : String → ProbeOutcome) (deliverOk : String → Bool) :
    ∀ (cands : List String) (s : RunState),
      (runCandidates probe deliverOk s cands).blockedDetected = false →
      (runCandidates probe deliverOk s cands).checksDone < MAX_GOFILE_CHECKS_PER_RUN →
      ∀ u ∈ cands, u ∈ (runCandidates probe deliverOk s cands).seen
        ∨ u ∈ (runCandidates probe deliverOk s cands).probed := by
  intro cands
  induction cands with
  | nil => intro s _ _ u hu; exact absurd hu (List.not_mem_nil u)
  | cons url rest ih =>
    intro s hbf hcl u hu
    by_cases hmem : url ∈ s.seen
    · rw [runCandidates_skip probe deliverOk s url rest hmem] at hbf hcl ⊢
      rcases List.mem_cons.mp hu with rfl | hu'
      · exact Or.inl (runCandidates_seen_mono probe deliverOk rest s u hmem)
      · exact ih s hbf hcl u hu'
    · by_cases hbud : MAX_GOFILE_CHECKS_PER_RUN ≤ s.checksDone
      · rw [runCandidates_budget_stop probe deliverOk s url rest hmem hbud] at hcl
        exact absurd hbud (Nat.not_le_of_lt hcl)
      · cases hst : check_gofile_status (probe url) with
        | blocked =>
          rw [runCandidates_blocked probe deliverOk s url rest hmem hbud hst] at hbf
          simp at hbf
        | dead =>
          rw [runCandidates_dead probe deliverOk s url rest hmem hbud hst] at hbf hcl ⊢
          rcases List.mem_cons.mp hu with rfl | hu'
          · right
            obtain ⟨t, ht⟩ := runCandidates_probed_ext probe deliverOk rest { s with checksDone := s.checksDone + 1, probed := s.probed ++ [u], seen := seenAdd s.seen u, newSeen := true }
            rw [ht]; simp
          · exact ih _ hbf hcl u hu'
        | alive =>
          cases hdel : deliverOk url with
          | true =>
            rw [runCandidates_alive_delivered probe deliverOk s url rest hmem hbud hst hdel] at hbf hcl ⊢
            rcases List.mem_cons.mp hu with rfl | hu'
            · right
              obtain ⟨t, ht⟩ := runCandidates_probed_ext probe deliverOk rest { s with checksDone := s.checksDone + 1, probed := s.probed ++ [u], delivered := s.delivered ++ [u], seen := seenAdd s.seen u, newSeen := true, processed := s.processed + 1 }
              rw [ht]; simp
            · exact ih _ hbf hcl u hu'
          | false =>
            rw [runCandidates_alive_failed probe deliverOk s url rest hmem hbud hst hdel] at hbf hcl ⊢
            rcases List.mem_cons.mp hu with rfl | hu'
            · right
              obtain ⟨t, ht⟩ := runCandidates_probed_ext probe deliverOk rest { s with checksDone := s.checksDone + 1, probed := s.probed ++ [u] }
              rw [ht]; simp
            · exact ih _ hbf hcl u hu'

theorem runSources_complete (probe : String → ProbeOutcome) (deliverOk : String → Bool) :
    ∀ (srcs : List (List String)) (s : RunState),
      (runSources probe deliverOk s srcs).blockedDetected = false →
      (runSources probe deliverOk s srcs).checksDone < MAX_GOFILE_CHECKS_PER_RUN →
      ∀ u ∈ srcs.flatten, u ∈ (runSources probe deliverOk s srcs).seen
        ∨ u ∈ (runSources probe deliverOk s srcs).probed := by
  intro srcs
  induction srcs with
  | nil => intro s _ _ u hu; rw [List.flatten_nil] at hu; exact absurd hu (List.not_mem_nil u)
  | cons cands rest ih =>
    intro s hbf hcl u hu
    rw [runSources_cons] at hbf hcl ⊢
    by_cases hguard : (runCandidates probe deliverOk s cands).blockedDetected = true
        ∨ MAX_GOFILE_CHECKS_PER_RUN ≤ (runCandidates probe deliverOk s cands).checksDone
    · rw [if_pos hguard] at hbf hcl
      rcases hguard with hg | hg
      · rw [hbf] at hg; cases hg
      · exact absurd hg (Nat.not_le_of_lt hcl)
    · rw [if_neg hguard] at hbf hcl ⊢
      push_neg at hguard
      obtain ⟨hg1, hg2⟩ := hguard
      have hb1 : (runCandidates probe deliverOk s cands).blockedDetected = false := by
        rcases Bool.eq_false_or_eq_true (runCandidates probe deliverOk s cands).blockedDetected
          with h | h
        · exact absurd h hg1
        · exact h
      have hc1 : (runCandidates probe deliverOk s cands).checksDone < MAX_GOFILE_CHECKS_PER_RUN :=
        hg2
      rw [List.flatten_cons] at hu
      rcases List.mem_append.mp hu with hu' | hu'
      · rcases runCandidates_complete probe deliverOk cands s hb1 hc1 u hu' with h' | h'
        · exact Or.inl (runSources_seen_mono probe deliverOk rest _ u h')
        · right
          obtain ⟨t, ht⟩ := runSources_probed_ext probe deliverOk rest
            (runCandidates probe deliverOk s cands)
          rw [ht]
          exact List.mem_append.mpr (Or.inl h')
      · exact ih _ hbf hcl u hu'

theorem runCandidates_exhausted (probe : String → ProbeOutcome) (deliverOk : String → Bool) :
    ∀ (cands : List String) (s : RunState), MAX_GOFILE_CHECKS_PER_RUN ≤ s.checksDone →
      (runCandidates probe deliverOk s cands).probed = s.probed
      ∧ (runCandidates probe deliverOk s cands).checksDone = s.checksDone := by
  intro cands
  induction cands with
  | nil => intro s _; exact ⟨rfl, rfl⟩
  | cons url rest ih =>
    intro s h
    by_cases hmem : url ∈ s.seen
    · rw [runCandidates_skip probe deliverOk s url rest hmem]; exact ih s h
    · rw [runCandidates_budget_stop probe deliverOk s url rest hmem h]; exact ⟨rfl, rfl⟩

theorem runSources_exhausted (probe : String → ProbeOutcome) (deliverOk : String → Bool) :
    ∀ (srcs : List (List String)) (s : RunState), MAX_GOFILE_CHECKS_PER_RUN ≤ s.checksDone →
      (runSources probe deliverOk s srcs).probed = s.probed
      ∧ (runSources probe deliverOk s srcs).checksDone = s.checksDone := by
  intro srcs
  induction srcs with
  | nil => intro s _; exact ⟨rfl, rfl⟩
  | cons cands rest _ =>
    intro s h
    obtain ⟨e1, e2⟩ := runCandidates_exhausted probe deliverOk cands s h
    rw [runSources_cons, if_pos (Or.inr (by rw [e2]; exact h))]
    exact ⟨e1, e2⟩

theorem nodup_subset_length {l₁ l₂ : List String} (h1 : l₁.Nodup) (h2 : ∀ u ∈ l₁, u ∈ l₂) :
    l₁.length ≤ l₂.length := by
  calc l₁.length = l₁.toFinset.card := (List.toFinset_card_of_nodup h1).symm
  _ ≤ l₂.toFinset.card := Finset.card_le_card
      (fun x hx => List.mem_toFinset.mpr (h2 x (List.mem_toFinset.mp hx)))
  _ ≤ l₂.length := l₂.toFinset_card_le

theorem mem_unseenCandidates {seen0 : List String} {srcs : List (List String)} {u : String} :
    u ∈ unseenCandidates seen0 srcs ↔ u ∈ srcs.flatten ∧ u ∉ seen0 := by
  simp [unseenCandidates, List.mem_filter, List.mem_dedup]

theorem unseenCandidates_nodup (seen0 : List String) (srcs : List (List String)) :
    (unseenCandidates seen0 srcs).Nodup :=
  (List.nodup_dedup srcs.flatten).filter _

/-! ### The claims -/

/-- C1: a candidate already in the seen set when the per-candidate loop
reaches it is skipped before the budget check, is never probed by
`check_gofile_status` and never delivered in that run: across the whole
run the number of probes and deliveries of such a URL does not change, and
the skip step itself ignores the budget state entirely. -/
theorem c1_seen_never_reprobed (probe : String → ProbeOutcome) (deliverOk : String → Bool)
    (s : RunState) (srcs : List (List String)) (c : String) (rest : List String)
    (h : c ∈ s.seen) :
    (runSources probe deliverOk s srcs).probed.count c = s.probed.count c
    ∧ (runSources probe deliverOk s srcs).delivered.count c = s.delivered.count c
    ∧ runCandidates probe deliverOk s (c :: rest) = runCandidates probe deliverOk s rest := by
  obtain ⟨e1, e2⟩ := runSources_count_pres probe deliverOk srcs s c h
  exact ⟨e1, e2, runCandidates_skip probe deliverOk s c rest h⟩

/-- Witness for C1 at a concrete run: the pre-seen URL is probed zero
times and delivered zero times. -/
theorem c1_seen_never_reprobed_witness :
    (runSources (fun _ => ProbeOutcome.navError) (fun _ => true) (initState ["https://gofile.io/d/A"]) [["https://gofile.io/d/A"]]).probed.count "https://gofile.io/d/A" = (initState ["https://gofile.io/d/A"]).probed.count "https://gofile.io/d/A"
    ∧ (runSources (fun _ => ProbeOutcome.navError) (fun _ => true) (initState ["https://gofile.io/d/A"]) [["https://gofile.io/d/A"]]).delivered.count "https://gofile.io/d/A" = (initState ["https://gofile.io/d/A"]).delivered.count "https://gofile.io/d/A"
    ∧ runCandidates (fun _ => ProbeOutcome.navError) (fun _ => true) (initState ["https://gofile.io/d/A"]) ["https://gofile.io/d/A"] = runCandidates (fun _ => ProbeOutcome.navError) (fun _ => true) (initState ["https://gofile.io/d/A"]) [] :=
  c1_seen_never_reprobed (fun _ => ProbeOutcome.navError) (fun _ => true)
    (initState ["https://gofile.io/d/A"]) [["https://gofile.io/d/A"]]
    "https://gofile.io/d/A" [] (by decide)

/-- C2: if a run ends block-terminated, the blocked candidate is the last
URL probed (every earlier probe classified non-blocked, and nothing is
probed after it, in this or any later source of the run), and that URL is
not in the final seen set, hence absent from the saved ledger. -/
theorem c2_block_containment (probe : String → ProbeOutcome) (deliverOk : String → Bool)
    (seen0 : List String) (srcs : List (List String))
    (h : (mainRun probe deliverOk seen0 srcs).blockedDetected = true) :
    ∃ l u, (mainRun probe deliverOk seen0 srcs).probed = l ++ [u]
      ∧ check_gofile_status (probe u) = .blocked
      ∧ (∀ v ∈ l, check_gofile_status (probe v) ≠ .blocked)
      ∧ u ∉ (mainRun probe deliverOk seen0 srcs).seen :=
  runSources_blocked_inv probe deliverOk srcs (initState seen0) rfl
    (fun v hv => absurd hv (List.not_mem_nil v)) h

/-- Witness for C2 at a concrete block-terminated run. -/
theorem c2_block_containment_witness :
    ∃ l u, (mainRun (fun _ => ProbeOutcome.pageText GOFILE_BLOCK_PATTERN) (fun _ => true) [] [["https://gofile.io/d/X"]]).probed = l ++ [u]
      ∧ check_gofile_status ((fun _ => ProbeOutcome.pageText GOFILE_BLOCK_PATTERN) u) = .blocked
      ∧ (∀ v ∈ l, check_gofile_status ((fun _ => ProbeOutcome.pageText GOFILE_BLOCK_PATTERN) v) ≠ .blocked)
      ∧ u ∉ (mainRun (fun _ => ProbeOutcome.pageText GOFILE_BLOCK_PATTERN) (fun _ => true) [] [["https://gofile.io/d/X"]]).seen :=
  c2_block_containment (fun _ => ProbeOutcome.pageText GOFILE_BLOCK_PATTERN) (fun _ => true)
    [] [["https://gofile.io/d/X"]] (by decide)

/-- C3, counterexample to the claim as stated: 41 distinct unseen
candidates are available across the sources (one more than the budget of
40), yet because the first probe classifies `blocked`, only one liveness
probe is performed, not 40: "more than N unseen candidates" alone does
not force exactly N probes. -/
theorem c3_budget_counterexample :
    budgetCands.length = 41
    ∧ (unseenCandidates [] [budgetCands]).length = 41
    ∧ MAX_GOFILE_CHECKS_PER_RUN < (unseenCandidates [] [budgetCands]).length
    ∧ (mainRun (fun _ => ProbeOutcome.pageText GOFILE_BLOCK_PATTERN) (fun _ => true) [] [budgetCands]).checksDone = 1
    ∧ (mainRun (fun _ => ProbeOutcome.pageText GOFILE_BLOCK_PATTERN) (fun _ => true) [] [budgetCands]).checksDone ≠ MAX_GOFILE_CHECKS_PER_RUN :=
  ⟨by decide, by decide, by decide, by decide, by decide⟩

/-- C3, amended: for every run with probe budget N =
`MAX_GOFILE_CHECKS_PER_RUN` and more than N distinct unseen candidates
available across the sources, none of which classifies `blocked`, exactly
N liveness probes are performed: the counter and the probe log both reach
exactly N, from any state within budget the counter never exceeds N, and
once the counter has reached N nothing further is probed in any remaining
candidate or source — the run ends. -/
theorem c3_budget_enforcement (probe : String → ProbeOutcome) (deliverOk : String → Bool)
    (seen0 : List String) (srcs : List (List String))
    (hnb : ∀ u ∈ srcs.flatten, check_gofile_status (probe u) ≠ .blocked)
    (hM : MAX_GOFILE_CHECKS_PER_RUN < (unseenCandidates seen0 srcs).length) :
    (mainRun probe deliverOk seen0 srcs).checksDone = MAX_GOFILE_CHECKS_PER_RUN
    ∧ (mainRun probe deliverOk seen0 srcs).probed.length = MAX_GOFILE_CHECKS_PER_RUN
    ∧ (∀ (s : RunState) (srcs' : List (List String)),
        s.checksDone ≤ MAX_GOFILE_CHECKS_PER_RUN →
        (runSources probe deliverOk s srcs').checksDone ≤ MAX_GOFILE_CHECKS_PER_RUN)
    ∧ (∀ (s : RunState) (srcs' : List (List String)),
        MAX_GOFILE_CHECKS_PER_RUN ≤ s.checksDone →
        (runSources probe deliverOk s srcs').probed = s.probed) := by
  have hlen : (runSources probe deliverOk (initState seen0) srcs).probed.length
      = (runSources probe deliverOk (initState seen0) srcs).checksDone :=
    runSources_probed_length probe deliverOk srcs (initState seen0) rfl
  have hle : (runSources probe deliverOk (initState seen0) srcs).checksDone
      ≤ MAX_GOFILE_CHECKS_PER_RUN :=
    runSources_checks_le probe deliverOk srcs (initState seen0) (Nat.zero_le _)
  have hbf : (runSources probe deliverOk (initState seen0) srcs).blockedDetected = false := by
    rcases Bool.eq_false_or_eq_true
      (runSources probe deliverOk (initState seen0) srcs).blockedDetected with h | h
    · obtain ⟨l, u, hp, hcls, -, -⟩ := runSources_blocked_inv probe deliverOk srcs
        (initState seen0) rfl (fun v hv => absurd hv (List.not_mem_nil v)) h
      have hu : u ∈ (runSources probe deliverOk (initState seen0) srcs).probed := by
        rw [hp]; simp
      rcases runSources_probed_sub probe deliverOk srcs (initState seen0) u hu with h' | h'
      · exact absurd h' (List.not_mem_nil u)
      · exact absurd hcls (hnb u h')
    · exact h
  have hge : MAX_GOFILE_CHECKS_PER_RUN
      ≤ (runSources probe deliverOk (initState seen0) srcs).checksDone := by
    by_contra hlt
    push_neg at hlt
    have hsub : ∀ u ∈ unseenCandidates seen0 srcs,
        u ∈ (runSources probe deliverOk (initState seen0) srcs).probed := by
      intro u hu
      obtain ⟨hu1, hu2⟩ := mem_unseenCandidates.mp hu
      rcases runSources_complete probe deliverOk srcs (initState seen0) hbf hlt u hu1
        with h' | h'
      · rcases runSources_seen_from_probed probe deliverOk srcs (initState seen0) u h'
          with h'' | h''
        · exact absurd h'' hu2
        · exact h''
      · exact h'
    have hshort := nodup_subset_length (unseenCandidates_nodup seen0 srcs) hsub
    omega
  have heq : (runSources probe deliverOk (initState seen0) srcs).checksDone
      = MAX_GOFILE_CHECKS_PER_RUN := Nat.le_antisymm hle hge
  exact ⟨heq, hlen.trans heq,
    fun s srcs' hs => runSources_checks_le probe deliverOk srcs' s hs,
    fun s srcs' hs => (runSources_exhausted probe deliverOk srcs' s hs).1⟩

/-- Witness for C3 (amended) at a concrete run: 41 distinct unseen
candidates spread over two sources, all probes failing navigation (hence
`dead`, never `blocked`); exactly 40 probes happen. -/
theorem c3_budget_enforcement_witness :
    (mainRun (fun _ => ProbeOutcome.navError) (fun _ => true) [] [budgetCands.take 20, budgetCands.drop 20]).checksDone = MAX_GOFILE_CHECKS_PER_RUN
    ∧ (mainRun (fun _ => ProbeOutcome.navError) (fun _ => true) [] [budgetCands.take 20, budgetCands.drop 20]).probed.length = MAX_GOFILE_CHECKS_PER_RUN := by
  have h := c3_budget_enforcement (fun _ => ProbeOutcome.navError) (fun _ => true) []
    [budgetCands.take 20, budgetCands.drop 20] (by decide) (by decide)
  exact ⟨h.1, h.2.1⟩

/-- C4: extraction of the two spec examples does normalize to
`https://gofile.io/d/AbC123`, but an input whose link already carries an
explicit `http://` scheme is returned unchanged — `u.startswith("http")`
is also true of `http://`, so the scheme is NOT forced to `https` there,
contradicting the claim and the function's own docstring. -/
theorem c4_scheme_normalization :
    normalize_gofile_urls_from_text "https:\\/\\/gofile.io\\/d\\/AbC123" = ["https://gofile.io/d/AbC123"]
    ∧ normalize_gofile_urls_from_text "gofile.io/d/AbC123" = ["https://gofile.io/d/AbC123"]
    ∧ normalize_gofile_urls_from_text "http://gofile.io/d/AbC123" = ["http://gofile.io/d/AbC123"]
    ∧ ("https://".toList.isPrefixOf "http://gofile.io/d/AbC123".toList) = false :=
  ⟨by decide, by decide, by decide, by decide⟩

/-- C5: the block-pattern check precedes the dead-pattern check: any
rendered page text containing `GOFILE_BLOCK_PATTERN` classifies `blocked`,
whatever else (in particular dead phrases) the text contains. -/
theorem c5_block_precedence (text : String)
    (h : strContains text GOFILE_BLOCK_PATTERN = true) :
    check_gofile_status (ProbeOutcome.pageText text) = .blocked := by
  simp [check_gofile_status, h]

/-- Witness for C5: a page containing both the password-protected dead
phrase and the block pattern classifies `blocked`, not `dead`. -/
theorem c5_block_precedence_witness :
    strContains ("This content is password protected " ++ GOFILE_BLOCK_PATTERN) "This content is password protected" = true
    ∧ "This content is password protected" ∈ GOFILE_DEAD_PATTERNS
    ∧ strContains ("This content is password protected " ++ GOFILE_BLOCK_PATTERN) GOFILE_BLOCK_PATTERN = true
    ∧ check_gofile_status (ProbeOutcome.pageText ("This content is password protected " ++ GOFILE_BLOCK_PATTERN)) = .blocked :=
  ⟨by decide, by decide, by decide,
   c5_block_precedence ("This content is password protected " ++ GOFILE_BLOCK_PATTERN) (by decide)⟩

/-- C6: for an `alive` candidate, a failed sheet append leaves the seen
set, the processed counter, the delivered log and the `new_seen` flag
untouched and the loop continues with the remaining candidates (the error
is swallowed); only a successful append adds the URL to the seen set and
bumps the processed counter. -/
theorem c6_delivery_failure_retry (probe : String → ProbeOutcome) (deliverOk : String → Bool)
    (s : RunState) (url : String) (rest : List String)
    (h1 : url ∉ s.seen) (h2 : ¬ MAX_GOFILE_CHECKS_PER_RUN ≤ s.checksDone)
    (h3 : check_gofile_status (probe url) = .alive) :
    (deliverOk url = false →
      runCandidates probe deliverOk s (url :: rest)
        = runCandidates probe deliverOk { s with checksDone := s.checksDone + 1, probed := s.probed ++ [url] } rest)
    ∧ (deliverOk url = true →
      runCandidates probe deliverOk s (url :: rest)
        = runCandidates probe deliverOk { s with checksDone := s.checksDone + 1, probed := s.probed ++ [url], delivered := s.delivered ++ [url], seen := seenAdd s.seen url, newSeen := true, processed := s.processed + 1 } rest) :=
  ⟨fun h4 => runCandidates_alive_failed probe deliverOk s url rest h1 h2 h3 h4,
   fun h4 => runCandidates_alive_delivered probe deliverOk s url rest h1 h2 h3 h4⟩

/-- Witness for C6 at a concrete alive candidate whose append fails. -/
theorem c6_delivery_failure_retry_witness :
    runCandidates (fun _ => ProbeOutcome.pageText "hello") (fun _ => false) (initState []) ["https://gofile.io/d/A"]
      = runCandidates (fun _ => ProbeOutcome.pageText "hello") (fun _ => false) { initState [] with checksDone := (initState []).checksDone + 1, probed := (initState []).probed ++ ["https://gofile.io/d/A"] } [] :=
  (c6_delivery_failure_retry (fun _ => ProbeOutcome.pageText "hello") (fun _ => false)
    (initState []) "https://gofile.io/d/A" [] (by decide) (by decide) (by decide)).1 rfl

/-- C7: the RSS-Bridge fetcher tries mirrors strictly in list order — a
failing mirror is skipped and recorded as contacted, the first successful
mirror short-circuits (its body is extracted and no later mirror is
contacted), and if every mirror fails the result is the empty set. -/
theorem c7_mirror_fallback (fetch : String → Option String)
    (base : String) (rest : List String) (body : String) :
    (fetch base = none →
      collect_gofile_urls_from_nitter_via_rss_bridge fetch (base :: rest)
        = ((collect_gofile_urls_from_nitter_via_rss_bridge fetch rest).1,
           base :: (collect_gofile_urls_from_nitter_via_rss_bridge fetch rest).2))
    ∧ (fetch base = some body →
      collect_gofile_urls_from_nitter_via_rss_bridge fetch (base :: rest)
        = (normalize_gofile_urls_from_text body, [base]))
    ∧ ((∀ b ∈ base :: rest, fetch b = none) →
      collect_gofile_urls_from_nitter_via_rss_bridge fetch (base :: rest) = ([], base :: rest)) := by
  refine ⟨?_, ?_, ?_⟩
  · intro h
    simp only [collect_gofile_urls_from_nitter_via_rss_bridge, h]
  · intro h
    simp only [collect_gofile_urls_from_nitter_via_rss_bridge, h]
  · intro h
    exact collect_all_none fetch (base :: rest) h

/-- Witness for C7: mirrors [M1 fails, M2 succeeds with {U1, U2}, M3];
the result is exactly {U1, U2} and M3 is never contacted. -/
theorem c7_mirror_fallback_witness :
    collect_gofile_urls_from_nitter_via_rss_bridge (fun b => if b = "M2" then some "x https://gofile.io/d/U1 y https://gofile.io/d/U2" else none) ["M1", "M2", "M3"]
      = (["https://gofile.io/d/U1", "https://gofile.io/d/U2"], ["M1", "M2"]) := by
  have h1 := (c7_mirror_fallback (fun b => if b = "M2" then some "x https://gofile.io/d/U1 y https://gofile.io/d/U2" else none) "M1" ["M2", "M3"] "x https://gofile.io/d/U1 y https://gofile.io/d/U2").1 (by decide)
  have h2 := (c7_mirror_fallback (fun b => if b = "M2" then some "x https://gofile.io/d/U1 y https://gofile.io/d/U2" else none) "M2" ["M3"] "x https://gofile.io/d/U1 y https://gofile.io/d/U2").2.1 (by decide)
  rw [h1, h2]
  decide

/-- C8: a run whose seen set already contains every discoverable candidate
performs zero probes and zero deliveries, leaves the state exactly as
loaded, keeps the membership-changed flag false, and never invokes the
ledger save. -/
theorem c8_idempotent_run (probe : String → ProbeOutcome) (deliverOk : String → Bool)
    (seen0 : List String) (srcs : List (List String))
    (h : ∀ cands ∈ srcs, ∀ u ∈ cands, u ∈ seen0) :
    mainRun probe deliverOk seen0 srcs = initState seen0
    ∧ (mainRun probe deliverOk seen0 srcs).delivered = []
    ∧ (mainRun probe deliverOk seen0 srcs).newSeen = false
    ∧ savePerformed (mainRun probe deliverOk seen0 srcs) = false
    ∧ (mainRun probe deliverOk seen0 srcs).probed = [] := by
  have he : mainRun probe deliverOk seen0 srcs = initState seen0 :=
    runSources_all_seen probe deliverOk srcs (initState seen0) h rfl
      (by show (0 : Nat) < MAX_GOFILE_CHECKS_PER_RUN; decide)
  refine ⟨he, ?_, ?_, ?_, ?_⟩ <;> rw [he] <;> rfl

/-- Witness for C8 at a concrete pre-populated run. -/
theorem c8_idempotent_run_witness :
    mainRun (fun _ => ProbeOutcome.navError) (fun _ => true) ["https://gofile.io/d/A"] [["https://gofile.io/d/A"]] = initState ["https://gofile.io/d/A"]
    ∧ (mainRun (fun _ => ProbeOutcome.navError) (fun _ => true) ["https://gofile.io/d/A"] [["https://gofile.io/d/A"]]).delivered = []
    ∧ (mainRun (fun _ => ProbeOutcome.navError) (fun _ => true) ["https://gofile.io/d/A"] [["https://gofile.io/d/A"]]).newSeen = false
    ∧ savePerformed (mainRun (fun _ => ProbeOutcome.navError) (fun _ => true) ["https://gofile.io/d/A"] [["https://gofile.io/d/A"]]) = false
    ∧ (mainRun (fun _ => ProbeOutcome.navError) (fun _ => true) ["https://gofile.io/d/A"] [["https://gofile.io/d/A"]]).probed = [] :=
  c8_idempotent_run (fun _ => ProbeOutcome.navError) (fun _ => true)
    ["https://gofile.io/d/A"] [["https://gofile.io/d/A"]] (by decide)

/-- C9: when the budget is already exhausted, the unseen candidate under
consideration is not probed and the state is returned unchanged except for
clearing the blocked flag — in particular its seen set is untouched; and
at run level any URL in the final seen set was either loaded at start or
actually probed during the run, so the budget-stop's triggering candidate
stays out of the saved ledger. -/
theorem c9_budget_stop_excludes_candidate (probe : String → ProbeOutcome)
    (deliverOk : String → Bool) (s : RunState) (url : String) (rest : List String)
    (s0 : RunState) (srcs : List (List String))
    (h1 : MAX_GOFILE_CHECKS_PER_RUN ≤ s.checksDone) (h2 : url ∉ s.seen) :
    runCandidates probe deliverOk s (url :: rest) = { s with blockedDetected := false }
    ∧ (∀ u, u ∈ (runSources probe deliverOk s0 srcs).seen →
        u ∈ s0.seen ∨ u ∈ (runSources probe deliverOk s0 srcs).probed) :=
  ⟨runCandidates_budget_stop probe deliverOk s url rest h2 h1,
   fun u hu => runSources_seen_from_probed probe deliverOk srcs s0 u hu⟩

/-- Witness for C9 at a concrete exhausted state. -/
theorem c9_budget_stop_excludes_candidate_witness :
    runCandidates (fun _ => ProbeOutcome.navError) (fun _ => true) { seen := [], newSeen := false, processed := 0, checksDone := 40, blockedDetected := false, probed := [], delivered := [] } ["https://gofile.io/d/A"]
      = { seen := ([] : List String), newSeen := false, processed := 0, checksDone := 40, blockedDetected := false, probed := ([] : List String), delivered := ([] : List String) }
    ∧ (∀ u, u ∈ (runSources (fun _ => ProbeOutcome.navError) (fun _ => true) (initState []) []).seen →
        u ∈ (initState []).seen ∨ u ∈ (runSources (fun _ => ProbeOutcome.navError) (fun _ => true) (initState []) []).probed) :=
  c9_budget_stop_excludes_candidate (fun _ => ProbeOutcome.navError) (fun _ => true)
    { seen := [], newSeen := false, processed := 0, checksDone := 40, blockedDetected := false, probed := [], delivered := [] }
    "https://gofile.io/d/A" [] (initState []) [] (by decide) (by decide)

/-- C10: during a run the seen set only grows — whatever it contains at
any state it still contains at the end; and any URL it gains was added
either on a `dead` verdict or on a successful delivery of an `alive`
verdict, the only two insertion sites. -/
theorem c10_seen_only_grows (probe : String → ProbeOutcome) (deliverOk : String → Bool)
    (s : RunState) (srcs : List (List String)) (u : String) :
    (u ∈ s.seen → u ∈ (runSources probe deliverOk s srcs).seen)
    ∧ (u ∈ (runSources probe deliverOk s srcs).seen →
        u ∈ s.seen ∨ check_gofile_status (probe u) = .dead
        ∨ (check_gofile_status (probe u) = .alive ∧ deliverOk u = true)) :=
  ⟨fun h => runSources_seen_mono probe deliverOk srcs s u h,
   fun h => runSources_seen_new probe deliverOk srcs s u h⟩

/-- Witness for C10 at a concrete run: a loaded URL survives to the end. -/
theorem c10_seen_only_grows_witness :
    "https://gofile.io/d/B" ∈ (runSources (fun _ => ProbeOutcome.navError) (fun _ => true) (initState ["https://gofile.io/d/B"]) [["https://gofile.io/d/C"]]).seen :=
  (c10_seen_only_grows (fun _ => ProbeOutcome.navError) (fun _ => true)
    (initState ["https://gofile.io/d/B"]) [["https://gofile.io/d/C"]] "https://gofile.io/d/B").1
    (by decide)

end Scraper
